import Mathlib

/-!
# Verification of the patisserie core (duration parser and request builder)

Shallow embedding of `src/main.rs` of the `patisserie` paste-upload client.
Rust `std::time::Duration` values occurring in this program always hold a
whole number of seconds, so a duration is embedded as the `Nat` of its
seconds; `u32`/`u64` arithmetic is `Nat` with explicit `2 ^ 32` / `2 ^ 64`
bounds where the Rust code checks them.  Rust strings are embedded as Lean
`String` (both are sequences of Unicode scalar values; byte indices computed
by the Rust code fall on character boundaries at every use site, which the
definitions below reflect).
-/

namespace Patisserie

/-! ## Duration constants (the `lazy_static` block of `main.rs`) -/

def ONE_MINUTE : Nat := 60
def ONE_HOUR : Nat := ONE_MINUTE * 60
def ONE_DAY : Nat := ONE_HOUR * 24
def ONE_WEEK : Nat := ONE_DAY * 7
def ONE_MONTH : Nat := ONE_WEEK * 4
def ONE_YEAR : Nat := ONE_DAY * 365
def ONE_HUNDRED_YEARS : Nat := ONE_YEAR * 100

/-! ## The duration parser (`parse_duration` in `main.rs`) -/

/-- The two ways `str::parse::<u32>` can fail on a run of ASCII digits:
the run is empty, or its value does not fit in a `u32`
(`std::num::IntErrorKind::{Empty, PosOverflow}`). -/
inductive IntErrorKind where
  | empty
  | posOverflow
deriving DecidableEq

/-- The errors `parse_duration` produces, keeping the data each
`format_err!` call interpolates into its message. -/
inductive DurationError where
  | missingUnit
  | malformedAmount (kind : IntErrorKind)
  | unknownUnit (unit : String)
  | durationTooLong (input : String)
deriving DecidableEq

/-- The `Display` rendering of each error, from the `err_msg` /
`format_err!` format strings in `main.rs` (for `malformedAmount`, from
the `Display` impl of `std::num::ParseIntError`). -/
def errMessage : DurationError → String
  | .missingUnit => "Did not find a unit, expected one of m, h, d, w, y"
  | .malformedAmount .empty => "cannot parse integer from empty string"
  | .malformedAmount .posOverflow => "number too large to fit in target type"
  | .unknownUnit u => "Unknown unit " ++ u ++ ", expected one of m, h, d, w, mo, y"
  | .durationTooLong s => "Duration " ++ s ++ " is too long; maximum duration is 100y"

/-- Value of a run of ASCII digit characters, most significant first. -/
def digitsVal (ds : List Char) : Nat :=
  ds.foldl (fun a c => a * 10 + (c.toNat - 48)) 0

/-- `amount_s.parse::<u32>()` where `amount_s` is a (possibly empty) run
of ASCII digits: fails on the empty run and on values exceeding
`u32::MAX`, otherwise yields the decimal value. -/
def parseU32 (ds : List Char) : Except IntErrorKind Nat :=
  if ds = [] then .error .empty
  else if digitsVal ds < 2 ^ 32 then .ok (digitsVal ds) else .error .posOverflow

/-- The `match unit { ... }` table of `parse_duration`. -/
def unitBase (u : String) : Option Nat :=
  if u = "m" then some ONE_MINUTE
  else if u = "h" then some ONE_HOUR
  else if u = "d" then some ONE_DAY
  else if u = "w" then some ONE_WEEK
  else if u = "mo" then some ONE_MONTH
  else if u = "y" then some ONE_YEAR
  else none

/-- `Duration::checked_mul`: the seconds multiply in `u64`, `None` on
overflow (nanoseconds are zero throughout this program). -/
def u64CheckedMul (a b : Nat) : Option Nat :=
  if a * b < 2 ^ 64 then some (a * b) else none

/-- `parse_duration` from `main.rs`: split the input at the first
non-ASCII-digit character (`s.find(|c| !c.is_ascii_digit())` followed by
`split_at`; absence of such a character is the missing-unit error), parse
the digit prefix as a `u32`, look the suffix up in the unit table,
multiply with overflow checking, and enforce the 100-year ceiling. -/
def parse_duration (s : String) : Except DurationError Nat :=
  let p := s.data.span Char.isDigit
  if p.2 = [] then .error .missingUnit
  else
    match parseU32 p.1 with
    | .error k => .error (.malformedAmount k)
    | .ok amount =>
      match unitBase (String.mk p.2) with
      | none => .error (.unknownUnit (String.mk p.2))
      | some base =>
        match u64CheckedMul base amount with
        | none => .error (.durationTooLong s)
        | some duration =>
          if duration > ONE_HUNDRED_YEARS then .error (.durationTooLong s)
          else .ok duration

/-! ## Decimal rendering

The decimal rendering of a `Nat` (what `u32`/`u64` `to_string` and the
decimal numerals appearing in claim inputs produce): digits most
significant first, `"0"` for zero.  Defined with explicit fuel and proved
correct (`digitsVal_natRepr`, `natRepr_digits`) below. -/

def natReprAux : Nat → Nat → List Char
  | 0, _ => []
  | fuel + 1, n =>
    if n = 0 then []
    else natReprAux fuel (n / 10) ++ [Nat.digitChar (n % 10)]

def natRepr (n : Nat) : String :=
  if n = 0 then "0" else String.mk (natReprAux n n)

/-! ## The language resolver (`parse_lang` in `main.rs`) -/

/-- Modelled from the spec: the language registry `LANGUAGES` is produced
at build time (`lang.codegen.rs`, generated by the build script, which is
not among the sources).  Per the spec it is "a fixed closed registry of
supported language identifiers", static data containing the `autodetect`
sentinel; looking up an alias yields the stored (canonical) key exactly on
a case-sensitive match.  The members listed here are the ones the spec and
the unit tests name; the claims proved below do not depend on which other
identifiers the generated registry holds. -/
def LANGUAGES : List String :=
  ["autodetect", "c", "html", "python", "rust"]

/-- `LANGUAGES.get_key(alias)`: the stored key on a case-sensitive exact
match, `None` otherwise (the stored key of a phf map is the matching
string itself). -/
def get_key (a : String) : Option String :=
  if a ∈ LANGUAGES then some a else none

/-- `AUTODETECT`: `LANGUAGES.get_key("autodetect").unwrap()`. -/
def AUTODETECT : String := (get_key "autodetect").getD "autodetect"

/-- `parse_lang` from `main.rs`: registry lookup with the `autodetect`
sentinel as the fallback. -/
def parse_lang (lang : String) : String :=
  (get_key lang).getD AUTODETECT

/-! ## Form-urlencoding (`url::form_urlencoded`, used by `query_pairs_mut`) -/

/-- UTF-8 encoding of one Unicode scalar value, as a list of byte values. -/
def utf8Bytes (c : Char) : List Nat :=
  let n := c.toNat
  if n < 0x80 then [n]
  else if n < 0x800 then [0xC0 + n / 64, 0x80 + n % 64]
  else if n < 0x10000 then [0xE0 + n / 4096, 0x80 + n / 64 % 64, 0x80 + n % 64]
  else [0xF0 + n / 262144, 0x80 + n / 4096 % 64, 0x80 + n / 64 % 64, 0x80 + n % 64]

/-- The bytes `form_urlencoded` passes through unencoded:
ASCII alphanumerics and `*`, `-`, `.`, `_`. -/
def isFormUnreserved (b : Nat) : Bool :=
  b = 42 || b = 45 || b = 46 || b = 95 ||
  (decide (48 ≤ b) && decide (b ≤ 57)) ||
  (decide (65 ≤ b) && decide (b ≤ 90)) ||
  (decide (97 ≤ b) && decide (b ≤ 122))

/-- Uppercase hexadecimal digit for a nibble. -/
def hexUpper (n : Nat) : Char :=
  if n < 10 then Char.ofNat (48 + n) else Char.ofNat (55 + n)

/-- `form_urlencoded`'s serialization of one byte: space becomes `+`,
unreserved bytes pass through, everything else is `%XX` with uppercase
hex. -/
def formEncodeByte (b : Nat) : List Char :=
  if b = 32 then ['+']
  else if isFormUnreserved b then [Char.ofNat b]
  else ['%', hexUpper (b / 16), hexUpper (b % 16)]

/-- Serialization of one character: UTF-8 encode it, then serialize each
byte. -/
def encodeChar (c : Char) : List Char :=
  (utf8Bytes c).foldr (fun b a => formEncodeByte b ++ a) []

/-- Form-urlencoding of a string: serialize the bytes of its UTF-8
encoding in order. -/
def formEncode (s : String) : String :=
  String.mk (s.data.foldr (fun c acc => encodeChar c ++ acc) [])

/-- `Serializer::append_pair`: preceded by `&` unless the query built so
far is empty, then `encoded key = encoded value`. -/
def appendPair (query k v : String) : String :=
  (if query = "" then query else query ++ "&") ++ formEncode k ++ "=" ++ formEncode v

/-! ## Paths (`std::path::Path::file_name` on Unix-style paths) -/

/-- Split a character list at every `/`. -/
def splitSlash : List Char → List (List Char)
  | [] => [[]]
  | c :: cs =>
    if c = '/' then [] :: splitSlash cs
    else
      match splitSlash cs with
      | [] => [[c]]
      | p :: ps => (c :: p) :: ps

/-- `Path::file_name`: the last component after dropping empty components
and `.` components; `None` when no component remains or the last one is
`..` (then the path has no final normal component). -/
def fileName (p : String) : Option String :=
  let comps := (splitSlash p.data).filter (fun c => !(c = [] || c = ['.']))
  match comps.getLast? with
  | none => none
  | some c => if c = ['.', '.'] then none else some (String.mk c)

/-! ## The request builder (`generate_url` in `main.rs`) -/

def PASTERY_URL : String := "https://www.pastery.net/api/paste/"

/-- The `Options` struct (the fields `generate_url` reads).  `duration`
is the validated span in seconds; `max_views` is the optional `u32`;
`path` is the optional file path (a Lean `String` stands for the
`PathBuf`, whose lossy display conversion is the identity on valid
Unicode). -/
structure Options where
  api_key : String
  lang : String
  duration : Nat
  title : Option String
  max_views : Option Nat
  path : Option String

/-- The `match (&options.title, &options.path)` computing `maybe_title`
in `generate_url`. -/
def maybeTitle (o : Options) : Option String :=
  match o.title, o.path with
  | some title, _ => some title
  | _, some path => fileName path
  | _, _ => none

/-- `generate_url` from `main.rs`: the base URL followed by the query
built by the successive `append_pair` calls. -/
def generate_url (o : Options) : String :=
  let durationInMin := o.duration / 60
  let q := appendPair "" "api_key" o.api_key
  let q := appendPair q "language" o.lang
  let q := appendPair q "duration" (natRepr durationInMin)
  let maxViews := o.max_views.getD 0
  let q := if maxViews > 0 then appendPair q "max_views" (natRepr maxViews) else q
  let q :=
    match maybeTitle o with
    | some title => appendPair q "title" title
    | none => q
  PASTERY_URL ++ "?" ++ q

/-- The optional `max_views` parameter as the spec states it: included
only if present AND strictly greater than zero; zero or absent omits it
entirely. -/
def maxViewsParam (o : Options) : String :=
  match o.max_views with
  | some n => if 0 < n then "&max_views=" ++ formEncode (natRepr n) else ""
  | none => ""

/-- The optional `title` parameter as the spec states it: included only
when the title precedence (explicit title, else path file name, else
nothing) resolves. -/
def titleParam (o : Options) : String :=
  match maybeTitle o with
  | some t => "&title=" ++ formEncode t
  | none => ""

/-- The URL shape stated by the spec:
`https://www.pastery.net/api/paste/?api_key=<K>&language=<L>&duration=<minutes>[&max_views=<N>][&title=<T>]`,
parameters in exactly that order, no others, values form-urlencoded. -/
def specUrl (o : Options) : String :=
  "https://www.pastery.net/api/paste/?api_key=" ++ formEncode o.api_key
    ++ "&language=" ++ formEncode o.lang
    ++ "&duration=" ++ formEncode (natRepr (o.duration / 60))
    ++ maxViewsParam o ++ titleParam o

/-- Decidable equality of parser results, for evaluating concrete runs. -/
instance {ε α : Type} [DecidableEq ε] [DecidableEq α] : DecidableEq (Except ε α) :=
  fun a b =>
    match a, b with
    | .ok x, .ok y =>
      if h : x = y then .isTrue (by rw [h]) else .isFalse (fun hh => h (Except.ok.inj hh))
    | .error x, .error y =>
      if h : x = y then .isTrue (by rw [h]) else .isFalse (fun hh => h (Except.error.inj hh))
    | .ok _, .error _ => .isFalse (fun hh => Except.noConfusion hh)
    | .error _, .ok _ => .isFalse (fun hh => Except.noConfusion hh)

/-! ## Lemmas about the decimal rendering -/

theorem data_inj {s t : String} (h : s.data = t.data) : s = t := by
  cases s; cases t; simp only at h; rw [h]

theorem digitChar_isDigit {m : Nat} (hm : m < 10) : (Nat.digitChar m).isDigit = true := by
  interval_cases m <;> decide

theorem digitChar_toNat {m : Nat} (hm : m < 10) : (Nat.digitChar m).toNat = 48 + m := by
  interval_cases m <;> decide

theorem digitsVal_concat (ds : List Char) (c : Char) :
    digitsVal (ds ++ [c]) = digitsVal ds * 10 + (c.toNat - 48) := by
  unfold digitsVal
  rw [List.foldl_append]
  rfl

theorem natReprAux_digits (fuel : Nat) : ∀ n : Nat, ∀ c ∈ natReprAux fuel n, c.isDigit = true := by
  induction fuel with
  | zero => intro n c hc; simp [natReprAux] at hc
  | succ fuel ih =>
    intro n c hc
    unfold natReprAux at hc
    split at hc
    · simp at hc
    · rw [List.mem_append] at hc
      rcases hc with hc | hc
      · exact ih _ c hc
      · simp only [List.mem_singleton] at hc
        subst hc
        exact digitChar_isDigit (Nat.mod_lt _ (by omega))

theorem digitsVal_natReprAux (fuel : Nat) : ∀ n : Nat, n ≤ fuel → digitsVal (natReprAux fuel n) = n := by
  induction fuel with
  | zero =>
    intro n hn
    interval_cases n
    rfl
  | succ fuel ih =>
    intro n hn
    unfold natReprAux
    split
    · rename_i h
      subst h
      rfl
    · rename_i h
      have hdiv : n / 10 < n := Nat.div_lt_self (by omega) (by omega)
      rw [digitsVal_concat, ih (n / 10) (by omega), digitChar_toNat (Nat.mod_lt _ (by omega))]
      omega

theorem natRepr_digits (n : Nat) : ∀ c ∈ (natRepr n).data, c.isDigit = true := by
  unfold natRepr
  split
  · decide
  · exact natReprAux_digits n n

theorem digitsVal_natRepr (n : Nat) : digitsVal (natRepr n).data = n := by
  unfold natRepr
  split
  · rename_i h
    subst h
    rfl
  · exact digitsVal_natReprAux n n le_rfl

theorem natRepr_data_ne_nil (n : Nat) : (natRepr n).data ≠ [] := by
  unfold natRepr
  split
  · decide
  · rename_i h
    cases n with
    | zero => exact absurd rfl h
    | succ m =>
      unfold natReprAux
      rw [if_neg h]
      simp

theorem parseU32_natRepr {n : Nat} (hn : n < 2 ^ 32) : parseU32 (natRepr n).data = .ok n := by
  unfold parseU32
  rw [if_neg (natRepr_data_ne_nil n), digitsVal_natRepr, if_pos hn]

/-! ## Lemmas about the digit/suffix split -/

theorem takeWhile_digits_append (ds cs : List Char) (c : Char)
    (hds : ∀ x ∈ ds, Char.isDigit x = true) (hc : Char.isDigit c = false) :
    (ds ++ c :: cs).takeWhile Char.isDigit = ds := by
  induction ds with
  | nil => simp [List.takeWhile_cons, hc]
  | cons d ds ih =>
    have hd : Char.isDigit d = true := hds d (List.mem_cons_self d ds)
    rw [List.cons_append, List.takeWhile_cons, hd]
    simp [ih (fun x hx => hds x (List.mem_cons_of_mem d hx))]

theorem dropWhile_digits_append (ds cs : List Char) (c : Char)
    (hds : ∀ x ∈ ds, Char.isDigit x = true) (hc : Char.isDigit c = false) :
    (ds ++ c :: cs).dropWhile Char.isDigit = c :: cs := by
  induction ds with
  | nil => simp [List.dropWhile_cons, hc]
  | cons d ds ih =>
    have hd : Char.isDigit d = true := hds d (List.mem_cons_self d ds)
    rw [List.cons_append, List.dropWhile_cons, hd]
    simp [ih (fun x hx => hds x (List.mem_cons_of_mem d hx))]

theorem span_digits_append (ds cs : List Char) (c : Char)
    (hds : ∀ x ∈ ds, Char.isDigit x = true) (hc : Char.isDigit c = false) :
    (ds ++ c :: cs).span Char.isDigit = (ds, c :: cs) := by
  rw [List.span_eq_take_drop, takeWhile_digits_append ds cs c hds hc,
    dropWhile_digits_append ds cs c hds hc]

/-- Unfolding `parse_duration` once the digit/suffix split is known. -/
theorem parse_duration_split {s : String} {ds us : List Char}
    (h : s.data.span Char.isDigit = (ds, us)) :
    parse_duration s =
      if us = [] then .error .missingUnit
      else
        match parseU32 ds with
        | .error k => .error (.malformedAmount k)
        | .ok amount =>
          match unitBase (String.mk us) with
          | none => .error (.unknownUnit (String.mk us))
          | some base =>
            match u64CheckedMul base amount with
            | none => .error (.durationTooLong s)
            | some duration =>
              if duration > ONE_HUNDRED_YEARS then .error (.durationTooLong s)
              else .ok duration := by
  simp only [parse_duration, h]

/-- The six-entry unit table of the claim, unit string paired with its
base span in seconds. -/
def unitTable : List (String × Nat) :=
  [("m", ONE_MINUTE), ("h", ONE_HOUR), ("d", ONE_DAY), ("w", ONE_WEEK),
   ("mo", ONE_MONTH), ("y", ONE_YEAR)]

theorem parse_repr_unit_ok (u : String) (c : Char) (cs : List Char) (a b : Nat)
    (hu : u.data = c :: cs) (hc : c.isDigit = false)
    (hb : unitBase u = some b) (hby : b ≤ ONE_YEAR)
    (ha : a < 2 ^ 32) (hle : a * b ≤ ONE_HUNDRED_YEARS) :
    parse_duration (natRepr a ++ u) = .ok (a * b) := by
  have hspan : ((natRepr a ++ u).data).span Char.isDigit = ((natRepr a).data, c :: cs) := by
    rw [String.data_append, hu]
    exact span_digits_append _ _ _ (natRepr_digits a) hc
  have hmku : String.mk (c :: cs) = u := by rw [← hu]
  have hmul : b * a < 2 ^ 64 := by
    have h1 : b * a ≤ ONE_YEAR * a := Nat.mul_le_mul_right a hby
    have h2 : ONE_YEAR * a < ONE_YEAR * 2 ^ 32 := by
      have hy : (0 : Nat) < ONE_YEAR := by norm_num [ONE_YEAR, ONE_DAY, ONE_HOUR, ONE_MINUTE]
      exact mul_lt_mul_of_pos_left ha hy
    have h3 : ONE_YEAR * 2 ^ 32 < 2 ^ 64 := by
      norm_num [ONE_YEAR, ONE_DAY, ONE_HOUR, ONE_MINUTE]
    omega
  rw [parse_duration_split hspan, if_neg (by simp), parseU32_natRepr ha, hmku, hb]
  simp only [u64CheckedMul, if_pos hmul]
  rw [Nat.mul_comm b a] at hmul ⊢
  rw [if_neg (by omega)]

/-- C1: for every unit in the six-entry table and every `u32` amount whose
product with the unit's base span stays within 100×365 days,
`parse_duration` of the decimal rendering of the amount followed by the
unit returns exactly amount × base; in particular the whole non-digit
tail is the unit, so "1mo" yields 28 days. -/
theorem duration_table_roundtrip :
    (∀ p ∈ unitTable, ∀ a : Nat, a < 2 ^ 32 → a * p.2 ≤ ONE_HUNDRED_YEARS →
      parse_duration (natRepr a ++ p.1) = .ok (a * p.2)) ∧
    parse_duration "1mo" = .ok (28 * 86400) := by
  constructor
  · intro p hp a ha hle
    fin_cases hp <;>
      exact parse_repr_unit_ok _ _ _ a _ rfl (by decide) (by decide) (by decide) ha hle
  · rfl

/-- Witness for C1 at amount 5 and unit "m". -/
theorem duration_table_roundtrip_witness :
    ("m", ONE_MINUTE) ∈ unitTable ∧ 5 < 2 ^ 32 ∧ 5 * ONE_MINUTE ≤ ONE_HUNDRED_YEARS ∧
    parse_duration (natRepr 5 ++ "m") = .ok (5 * ONE_MINUTE) :=
  ⟨by decide, by decide, by decide,
    duration_table_roundtrip.1 ("m", ONE_MINUTE) (by decide) 5 (by decide) (by decide)⟩

/-- C2 counterexample: the claimed lower bound of one minute fails;
"0m" parses successfully to a zero-length span. -/
theorem parse_zero_below_minute :
    parse_duration "0m" = .ok 0 ∧ ¬ ONE_MINUTE ≤ 0 :=
  ⟨rfl, by decide⟩

/-- C2 (amended): whenever `parse_duration` returns Ok, the span is at
most 100×365 days and is a natural number (never negative); the lower end
of the range is 0, not one minute, reached at amount 0. -/
theorem parse_ok_bounded (s : String) (d : Nat) (h : parse_duration s = .ok d) :
    d ≤ ONE_HUNDRED_YEARS := by
  simp only [parse_duration] at h
  split at h
  · exact absurd h (by simp)
  · split at h
    · exact absurd h (by simp)
    · split at h
      · exact absurd h (by simp)
      · split at h
        · exact absurd h (by simp)
        · split at h
          · exact absurd h (by simp)
          · rename_i hgt
            rw [Except.ok.injEq] at h
            omega

/-- Witness for C2's amended theorem at input "1d". -/
theorem parse_ok_bounded_witness :
    parse_duration "1d" = .ok ONE_DAY ∧ ONE_DAY ≤ ONE_HUNDRED_YEARS :=
  ⟨rfl, parse_ok_bounded "1d" ONE_DAY rfl⟩

/-- C3: "100y" is accepted (the ceiling is inclusive), any computed span
strictly above 100×365 days — covering both the overflow branch of the
checked multiplication and the explicit comparison — fails with
`durationTooLong` carrying the original input, and that error's message
echoes the input and the literal "100y". -/
theorem hundred_years_ceiling :
    parse_duration "100y" = .ok ONE_HUNDRED_YEARS ∧
    (∀ (s : String) (ds us : List Char) (a b : Nat),
      s.data.span Char.isDigit = (ds, us) → us ≠ [] →
      parseU32 ds = .ok a → unitBase (String.mk us) = some b →
      ONE_HUNDRED_YEARS < b * a →
      parse_duration s = .error (.durationTooLong s)) ∧
    (∀ s : String,
      errMessage (.durationTooLong s) =
        "Duration " ++ s ++ " is too long; maximum duration is 100y") := by
  refine ⟨rfl, ?_, fun s => rfl⟩
  intro s ds us a b hspan hus hamt hunit hgt
  rw [parse_duration_split hspan, if_neg hus, hamt, hunit]
  by_cases hlt : b * a < 2 ^ 64
  · simp only [u64CheckedMul, if_pos hlt]
    rw [if_pos hgt]
  · simp only [u64CheckedMul, if_neg hlt]

/-- Witness for C3's rejection branch at input "101y". -/
theorem hundred_years_ceiling_witness :
    ("101y".data.span Char.isDigit = (['1', '0', '1'], ['y']) ∧ (['y'] : List Char) ≠ [] ∧
      parseU32 ['1', '0', '1'] = .ok 101 ∧ unitBase (String.mk ['y']) = some ONE_YEAR ∧
      ONE_HUNDRED_YEARS < ONE_YEAR * 101) ∧
    parse_duration "101y" = .error (.durationTooLong "101y") :=
  ⟨⟨rfl, by decide, rfl, rfl, by decide⟩,
    hundred_years_ceiling.2.1 "101y" ['1', '0', '1'] ['y'] 101 ONE_YEAR rfl (by decide)
      rfl rfl (by decide)⟩

/-- C7: `parse_duration` fails with `missingUnit` exactly when every
character of the input is an ASCII digit (including the empty input), and
an input starting with a non-digit fails with `malformedAmount` from the
`u32` conversion of the empty digit run. -/
theorem missing_unit_classification :
    (∀ s : String, parse_duration s = .error .missingUnit ↔ ∀ c ∈ s.data, c.isDigit = true) ∧
    (∀ (s : String) (c : Char) (cs : List Char), s.data = c :: cs → c.isDigit = false →
      parse_duration s = .error (.malformedAmount .empty)) := by
  constructor
  · intro s
    rw [parse_duration_split (List.span_eq_take_drop Char.isDigit s.data)]
    by_cases h : s.data.dropWhile Char.isDigit = []
    · rw [if_pos h]
      constructor
      · intro _
        exact List.dropWhile_eq_nil_iff.mp h
      · intro _
        rfl
    · rw [if_neg h]
      constructor
      · intro hcontra
        split at hcontra
        · simp at hcontra
        · split at hcontra
          · simp at hcontra
          · split at hcontra
            · simp at hcontra
            · split at hcontra <;> simp at hcontra
      · intro hall
        exact absurd (List.dropWhile_eq_nil_iff.mpr hall) h
  · intro s c cs hs hc
    have hspan : s.data.span Char.isDigit = ([], c :: cs) := by
      rw [hs]
      exact span_digits_append [] cs c (by simp) hc
    rw [parse_duration_split hspan, if_neg (by simp)]
    rfl

/-- Witness for C7 at inputs "m" and "100". -/
theorem missing_unit_classification_witness :
    ("m".data = 'm' :: [] ∧ ('m').isDigit = false ∧
      parse_duration "m" = .error (.malformedAmount .empty)) ∧
    (∀ c ∈ "100".data, c.isDigit = true) ∧
    parse_duration "100" = .error .missingUnit :=
  ⟨⟨rfl, rfl, missing_unit_classification.2 "m" 'm' [] rfl rfl⟩, by decide,
    (missing_unit_classification.1 "100").mpr (by decide)⟩

/-- C8 counterexample: "j" has a non-digit tail that is not one of the six
units, yet `parse_duration` fails with `malformedAmount`, not
`unknownUnit` — the amount parse runs before the unit lookup. -/
theorem unknown_unit_counterexample :
    unitBase "j" = none ∧
    parse_duration "j" = .error (.malformedAmount .empty) ∧
    parse_duration "j" ≠ .error (.unknownUnit "j") :=
  ⟨rfl, rfl, by decide⟩

/-- C8 (amended): for every input whose non-digit tail is not one of the
six units and whose leading digit run parses as a `u32`, `parse_duration`
fails with `unknownUnit`, and the error message names the offending suffix
and lists the six valid units. -/
theorem unknown_unit_error (s : String) (ds us : List Char) (a : Nat)
    (hspan : s.data.span Char.isDigit = (ds, us)) (hus : us ≠ [])
    (hamt : parseU32 ds = .ok a) (hunit : unitBase (String.mk us) = none) :
    parse_duration s = .error (.unknownUnit (String.mk us)) ∧
    errMessage (.unknownUnit (String.mk us)) =
      "Unknown unit " ++ String.mk us ++ ", expected one of m, h, d, w, mo, y" := by
  refine ⟨?_, rfl⟩
  rw [parse_duration_split hspan, if_neg hus, hamt, hunit]

/-- Witness for C8's amended theorem at input "100j". -/
theorem unknown_unit_error_witness :
    ("100j".data.span Char.isDigit = (['1', '0', '0'], ['j']) ∧ (['j'] : List Char) ≠ [] ∧
      parseU32 ['1', '0', '0'] = .ok 100 ∧ unitBase (String.mk ['j']) = none) ∧
    parse_duration "100j" = .error (.unknownUnit "j") :=
  ⟨⟨rfl, by decide, rfl, rfl⟩,
    (unknown_unit_error "100j" ['1', '0', '0'] ['j'] 100 rfl (by decide) rfl rfl).1⟩

/-- C9: `parse_lang` is total; a registry member resolves to itself (the
canonical key), any miss — including the empty string — resolves to the
`autodetect` sentinel, and the sentinel is itself a registry member. -/
theorem lang_resolver_total (l : String) :
    (l ∈ LANGUAGES → parse_lang l = l) ∧
    (l ∉ LANGUAGES → parse_lang l = AUTODETECT) ∧
    AUTODETECT ∈ LANGUAGES ∧ AUTODETECT = "autodetect" ∧
    parse_lang "" = AUTODETECT := by
  refine ⟨?_, ?_, by decide, rfl, rfl⟩
  · intro h
    simp [parse_lang, get_key, h]
  · intro h
    simp [parse_lang, get_key, h]

/-- Witness for C9 at a hit ("rust") and a miss ("asdf"). -/
theorem lang_resolver_total_witness :
    ("rust" ∈ LANGUAGES ∧ parse_lang "rust" = "rust") ∧
    ("asdf" ∉ LANGUAGES ∧ parse_lang "asdf" = AUTODETECT) :=
  ⟨⟨by decide, (lang_resolver_total "rust").1 (by decide)⟩,
    ⟨by decide, (lang_resolver_total "asdf").2.1 (by decide)⟩⟩

/-! ## Lemmas about the request builder -/

theorem appendPair_ne_empty (q k v : String) : appendPair q k v ≠ "" := by
  intro h
  have h2 : (appendPair q k v).length = 0 := by rw [h]; rfl
  unfold appendPair at h2
  rw [String.length_append, String.length_append, String.length_append] at h2
  have h3 : ("=" : String).length = 1 := rfl
  omega

theorem appendPair_empty (k v : String) :
    appendPair "" k v = formEncode k ++ "=" ++ formEncode v := by
  unfold appendPair
  rw [if_pos rfl, String.empty_append]

theorem appendPair_cons (q k v : String) (h : q ≠ "") :
    appendPair q k v = q ++ "&" ++ formEncode k ++ "=" ++ formEncode v := by
  unfold appendPair
  rw [if_neg h]

/-- The first three `append_pair` calls, merged into the spec's literal
fragments. -/
theorem generate_url_core (o : Options) :
    appendPair (appendPair (appendPair "" "api_key" o.api_key) "language" o.lang)
      "duration" (natRepr (o.duration / 60)) =
    "api_key=" ++ formEncode o.api_key ++ "&language=" ++ formEncode o.lang
      ++ "&duration=" ++ formEncode (natRepr (o.duration / 60)) := by
  rw [appendPair_cons _ _ _ (appendPair_ne_empty _ _ _),
    appendPair_cons _ _ _ (appendPair_ne_empty _ _ _), appendPair_empty]
  simp only [String.append_assoc]
  rfl

/-- `generate_url` produces exactly the URL shape the spec states. -/
theorem generate_url_eq_spec (o : Options) : generate_url o = specUrl o := by
  have hq3 : appendPair (appendPair (appendPair "" "api_key" o.api_key) "language" o.lang)
      "duration" (natRepr (o.duration / 60)) ≠ "" := appendPair_ne_empty _ _ _
  simp only [generate_url, specUrl]
  rcases hmv : o.max_views with _ | n
  · rcases hmt : maybeTitle o with _ | t
    · simp only [hmv, hmt, Option.getD_none, maxViewsParam, titleParam]
      rw [if_neg (lt_irrefl 0), generate_url_core, String.append_empty, String.append_empty]
      simp only [String.append_assoc]
      rfl
    · simp only [hmv, hmt, Option.getD_none, maxViewsParam, titleParam]
      rw [if_neg (lt_irrefl 0), appendPair_cons _ _ _ hq3, generate_url_core]
      simp only [String.append_assoc, String.append_empty]
      rfl
  · rcases hmt : maybeTitle o with _ | t
    · by_cases hn : 0 < n
      · simp only [hmv, hmt, Option.getD_some, maxViewsParam, titleParam]
        rw [if_pos hn, if_pos hn, appendPair_cons _ _ _ hq3, generate_url_core,
          String.append_empty]
        simp only [String.append_assoc]
        rfl
      · simp only [hmv, hmt, Option.getD_some, maxViewsParam, titleParam]
        rw [if_neg hn, if_neg hn, generate_url_core, String.append_empty, String.append_empty]
        simp only [String.append_assoc]
        rfl
    · by_cases hn : 0 < n
      · simp only [hmv, hmt, Option.getD_some, maxViewsParam, titleParam]
        rw [if_pos hn, if_pos hn,
          appendPair_cons _ _ _ (appendPair_ne_empty _ _ _),
          appendPair_cons _ _ _ hq3, generate_url_core]
        simp only [String.append_assoc]
        rfl
      · simp only [hmv, hmt, Option.getD_some, maxViewsParam, titleParam]
        rw [if_neg hn, if_neg hn, appendPair_cons _ _ _ hq3, generate_url_core,
          String.append_empty]
        simp only [String.append_assoc]
        rfl

/-! ## Lemmas about paths and digit encoding -/

theorem data_eq_of_eq {s t : String} (h : s = t) : s.data = t.data := by rw [h]

theorem splitSlash_ne_nil (cs : List Char) : splitSlash cs ≠ [] := by
  induction cs with
  | nil => simp [splitSlash]
  | cons c cs ih =>
    by_cases hc : c = '/'
    · simp [splitSlash, hc]
    · rcases h : splitSlash cs with _ | ⟨p, ps⟩
      · exact absurd h ih
      · simp [splitSlash, hc, h]

theorem splitSlash_append (xs ys : List Char) :
    splitSlash (xs ++ '/' :: ys) = splitSlash xs ++ splitSlash ys := by
  induction xs with
  | nil => simp [splitSlash]
  | cons c cs ih =>
    by_cases hc : c = '/'
    · subst hc
      simp [splitSlash, ih]
    · rcases h : splitSlash cs with _ | ⟨p, ps⟩
      · exact absurd h (splitSlash_ne_nil cs)
      · rw [List.cons_append]
        simp [splitSlash, hc, ih, h]

theorem splitSlash_no_slash (cs : List Char) (h : ∀ c ∈ cs, c ≠ '/') :
    splitSlash cs = [cs] := by
  induction cs with
  | nil => rfl
  | cons c cs ih =>
    have hc : c ≠ '/' := h c (List.mem_cons_self c cs)
    simp [splitSlash, hc, ih (fun x hx => h x (List.mem_cons_of_mem c hx))]

/-- A path ending in a slash-free, non-empty component other than `.` and
`..` has that component as its file name: the directories are stripped. -/
theorem fileName_append (d n : String) (h0 : n ≠ "") (hs : ∀ c ∈ n.data, c ≠ '/')
    (h1 : n ≠ ".") (h2 : n ≠ "..") :
    fileName (d ++ "/" ++ n) = some n := by
  have hnn : n.data ≠ [] := fun h => h0 (data_inj (h.trans rfl))
  have hnd : n.data ≠ ['.'] := fun h => h1 (data_inj (h.trans rfl))
  have hndd : n.data ≠ ['.', '.'] := fun h => h2 (data_inj (h.trans rfl))
  have hdata : (d ++ "/" ++ n).data = d.data ++ '/' :: n.data := by
    rw [String.data_append, String.data_append, List.append_assoc]
    rfl
  have hfil : List.filter (fun c => !(c = [] || c = ['.'])) [n.data] = [n.data] := by
    simp [List.filter, hnn, hnd]
  simp only [fileName, hdata, splitSlash_append, splitSlash_no_slash n.data hs,
    List.filter_append, hfil]
  rw [List.getLast?_concat]
  simp [hndd]

theorem natReprAux_mem (fuel : Nat) :
    ∀ n : Nat, ∀ c ∈ natReprAux fuel n, ∃ m : Nat, m < 10 ∧ c = Nat.digitChar m := by
  induction fuel with
  | zero => intro n c hc; simp [natReprAux] at hc
  | succ fuel ih =>
    intro n c hc
    unfold natReprAux at hc
    split at hc
    · simp at hc
    · rw [List.mem_append] at hc
      rcases hc with hc | hc
      · exact ih _ c hc
      · simp only [List.mem_singleton] at hc
        exact ⟨n % 10, Nat.mod_lt _ (by omega), hc⟩

theorem encodeChar_digitChar {m : Nat} (hm : m < 10) :
    encodeChar (Nat.digitChar m) = [Nat.digitChar m] := by
  interval_cases m <;> decide

theorem foldr_encode_self (l : List Char) (h : ∀ c ∈ l, encodeChar c = [c]) :
    l.foldr (fun c acc => encodeChar c ++ acc) [] = l := by
  induction l with
  | nil => rfl
  | cons c cs ih =>
    rw [List.foldr_cons, h c (List.mem_cons_self c cs),
      ih (fun x hx => h x (List.mem_cons_of_mem c hx))]
    rfl

/-- Decimal digit strings pass through form-urlencoding unchanged. -/
theorem formEncode_natRepr (n : Nat) : formEncode (natRepr n) = natRepr n := by
  have h : ∀ c ∈ (natRepr n).data, encodeChar c = [c] := by
    unfold natRepr
    split
    · decide
    · intro c hc
      obtain ⟨m, hm, rfl⟩ := natReprAux_mem n n c hc
      exact encodeChar_digitChar hm
  apply data_inj
  exact foldr_encode_self (natRepr n).data h

/-! ## Claims about the request builder -/

/-- C4: for every Options value, `generate_url` produces exactly the URL
of the spec shape — fixed base, then `api_key`, `language`, `duration` in
that order, then `max_views` iff present and strictly positive, then
`title` iff resolvable, nothing else — with form-urlencoded values, where
a space encodes as "+". -/
theorem url_shape (o : Options) :
    generate_url o = specUrl o ∧ formEncode " " = "+" :=
  ⟨generate_url_eq_spec o, rfl⟩

/-- C5: the title parameter follows the stated precedence — an explicit
title wins outright, else a present path contributes its final file-name
component with the directories stripped, else no title. -/
theorem title_precedence :
    (∀ (o : Options) (t : String), o.title = some t → maybeTitle o = some t) ∧
    (∀ o : Options, o.title = none → ∀ p, o.path = some p → maybeTitle o = fileName p) ∧
    (∀ o : Options, o.title = none → o.path = none → maybeTitle o = none) ∧
    (∀ d n : String, n ≠ "" → (∀ c ∈ n.data, c ≠ '/') → n ≠ "." → n ≠ ".." →
      fileName (d ++ "/" ++ n) = some n) := by
  refine ⟨?_, ?_, ?_, fileName_append⟩
  · intro o t ht
    simp [maybeTitle, ht]
  · intro o ht p hp
    simp [maybeTitle, ht, hp]
  · intro o ht hp
    simp [maybeTitle, ht, hp]

/-- Witness for C5: explicit title wins over a path, a path's directory is
stripped, and no title means no parameter. -/
theorem title_precedence_witness :
    maybeTitle ⟨"k", "autodetect", 60, some "t", none, some "x/y"⟩ = some "t" ∧
    maybeTitle ⟨"k", "autodetect", 60, none, none, some "foo/bar.rs"⟩ = fileName "foo/bar.rs" ∧
    maybeTitle ⟨"k", "autodetect", 60, none, none, none⟩ = none ∧
    fileName ("foo" ++ "/" ++ "bar.rs") = some "bar.rs" :=
  ⟨title_precedence.1 ⟨"k", "autodetect", 60, some "t", none, some "x/y"⟩ "t" rfl,
    title_precedence.2.1 ⟨"k", "autodetect", 60, none, none, some "foo/bar.rs"⟩ rfl
      "foo/bar.rs" rfl,
    title_precedence.2.2.1 ⟨"k", "autodetect", 60, none, none, none⟩ rfl rfl,
    title_precedence.2.2.2 "foo" "bar.rs" (by decide) (by decide) (by decide) (by decide)⟩

/-- C6: the duration parameter is the floor of the span's seconds divided
by 60, and it is always present — "0" when the span is under a minute. -/
theorem duration_minutes_param (o : Options) :
    (∃ pre suf, generate_url o =
      pre ++ "&duration=" ++ natRepr (o.duration / 60) ++ suf) ∧
    (o.duration < 60 → ∃ pre suf, generate_url o = pre ++ "&duration=0" ++ suf) := by
  have hmain : generate_url o =
      ("https://www.pastery.net/api/paste/?api_key=" ++ formEncode o.api_key
          ++ "&language=" ++ formEncode o.lang)
        ++ "&duration=" ++ natRepr (o.duration / 60)
        ++ (maxViewsParam o ++ titleParam o) := by
    rw [generate_url_eq_spec o]
    unfold specUrl
    rw [formEncode_natRepr]
    simp only [String.append_assoc]
  constructor
  · exact ⟨_, _, hmain⟩
  · intro h
    refine ⟨"https://www.pastery.net/api/paste/?api_key=" ++ formEncode o.api_key
        ++ "&language=" ++ formEncode o.lang, maxViewsParam o ++ titleParam o, ?_⟩
    rw [hmain, Nat.div_eq_of_lt h]
    simp only [String.append_assoc]
    rfl

/-- Witness for C6 at a 30-second duration. -/
theorem duration_minutes_param_witness :
    (30 : Nat) < 60 ∧ ∃ pre suf,
      generate_url ⟨"k", "autodetect", 30, none, none, none⟩ = pre ++ "&duration=0" ++ suf :=
  ⟨by decide, (duration_minutes_param ⟨"k", "autodetect", 30, none, none, none⟩).2 (by decide)⟩

/-- C10: with no explicit title and a path that has no final file-name
component, the title parameter is omitted entirely — the URL is the one
produced with no path at all — and `generate_url` stays total on such
inputs; `"/"` and a path ending in `".."` are such paths. -/
theorem title_omitted_without_filename :
    (∀ (o : Options) (p : String), o.title = none → o.path = some p → fileName p = none →
      maybeTitle o = none ∧ generate_url o = generate_url { o with path := none }) ∧
    fileName "/" = none ∧ fileName "foo/.." = none := by
  refine ⟨?_, rfl, rfl⟩
  intro o p ht hp hf
  have hmt : maybeTitle o = none := by
    simp [maybeTitle, ht, hp, hf]
  have hmt2 : maybeTitle { o with path := none } = none := by
    simp [maybeTitle, ht]
  refine ⟨hmt, ?_⟩
  simp only [generate_url, hmt, hmt2]

/-- Witness for C10 at a root path. -/
theorem title_omitted_without_filename_witness :
    maybeTitle ⟨"k", "autodetect", 60, none, none, some "/"⟩ = none ∧
    generate_url ⟨"k", "autodetect", 60, none, none, some "/"⟩ =
      generate_url ⟨"k", "autodetect", 60, none, none, none⟩ :=
  title_omitted_without_filename.1 ⟨"k", "autodetect", 60, none, none, some "/"⟩ "/" rfl rfl rfl

end Patisserie
